import Mathlib

/-!
Verification development for the dependency-declaration extraction engine of a
hierarchical build-definition tree (Gradle-style build scripts, per-directory
property files, and version-catalog files).

The repository under verification ships only the test suite of the extraction
engine; the engine itself is modelled here from the specification, faithful to
its component design (scope tree builder, script lexer, variable resolver,
catalog parser, registry URL accumulator, dependency assembler).
-/

namespace GradleExtract

/-- Lexicographic Bool-valued comparison of character lists. -/
def charListLt : List Char → List Char → Bool
  | [], [] => false
  | [], _ :: _ => true
  | _ :: _, [] => false
  | a :: as, b :: bs =>
    if a.toNat < b.toNat then true
    else if b.toNat < a.toNat then false
    else charListLt as bs

/-- Bool-valued lexicographic order on strings. -/
def strLtB (a b : String) : Bool := charListLt a.data b.data

/-- Whether the first list begins with the second. -/
def listBeginsWith : List Char → List Char → Bool
  | _, [] => true
  | [], _ :: _ => false
  | a :: as, b :: bs => a == b && listBeginsWith as bs

/-- Whether the first list ends with the second. -/
def listEndsWith (l suf : List Char) : Bool :=
  listBeginsWith l.reverse suf.reverse

/-- Split a character list at every occurrence of the separator. -/
def splitCh (sep : Char) : List Char → List (List Char)
  | [] => [[]]
  | c :: cs =>
    let r := splitCh sep cs
    if c == sep then [] :: r
    else
      match r with
      | [] => [[c]]
      | h :: t => (c :: h) :: t

/-- Drop trailing space characters. -/
def trimRightSpaces (l : List Char) : List Char :=
  (l.reverse.dropWhile fun c => c == ' ').reverse

/-- Modelled from the spec: the token classes of the script lexer (variable
assignments, dependency-coordinate literals, registry-url declarations and
plugin-with-version declarations), each recording the byte offset of the
portion subject to later rewriting. -/
inductive RawToken where
  | assign (name value : String) (valueOffset : Nat)
  | depLit (group artifact versionRaw : String) (versionOffset : Nat)
  | urlDecl (url : String)
  | pluginDecl (pluginId version : String) (versionOffset : Nat)
deriving Repr, DecidableEq

/-- Read a double-quoted region: returns the content (without quotes) and the
remainder after the closing quote. -/
def readQuotedAux : List Char → Option (List Char × List Char)
  | [] => none
  | c :: cs =>
    if c == '"' then some ([], cs)
    else (readQuotedAux cs).map fun r => (c :: r.1, r.2)

/-- Skip spaces and tabs, returning how many characters were skipped. -/
def skipWs : List Char → Nat × List Char
  | [] => (0, [])
  | c :: cs =>
    if c == ' ' || c == '\t' then
      let r := skipWs cs
      (r.1 + 1, r.2)
    else (0, c :: cs)

/-- Characters allowed at the start of an identifier. -/
def isIdentStart (c : Char) : Bool := c.isAlpha

/-- Characters allowed inside an identifier or property key. -/
def isIdentChar (c : Char) : Bool :=
  c.isAlphanum || c == '_' || c == '.' || c == '-'

/-- Modelled from the spec: classify a quoted literal as a dependency
coordinate (group, artifact and version separated by colons, the version
possibly carrying an at-sign extension marker); the recorded offset points at
the first character of the version portion. -/
def classifyDep (content : List Char) (contentPos : Nat) : Option RawToken :=
  if content.any (fun c => c == ' ') then none
  else
    match splitCh ':' content with
    | [g, a, v] =>
      if g.isEmpty || a.isEmpty || v.isEmpty then none
      else if g.any (fun c => c == '$') || a.any (fun c => c == '$') then none
      else
        let vparts := splitCh '@' v
        match vparts with
        | [ver] =>
          if ver.isEmpty then none
          else some (RawToken.depLit (String.mk g) (String.mk a) (String.mk ver)
            (contentPos + g.length + 1 + a.length + 1))
        | [ver, ext] =>
          if ver.isEmpty || ext.isEmpty then none
          else some (RawToken.depLit (String.mk g) (String.mk a) (String.mk ver)
            (contentPos + g.length + 1 + a.length + 1))
        | _ => none
    | _ => none

/-- Scan the tail of an assignment after its identifier: an equals sign
followed by either a quoted value or a bare value running to the end of the
statement. Returns the token, the remainder and the position after it. -/
def scanAssign (name : String) (rest : List Char) (pos : Nat) :
    Option (RawToken × List Char × Nat) :=
  let s1 := skipWs rest
  match s1.2 with
  | '=' :: r2 =>
    let s2 := skipWs r2
    match s2.2 with
    | '"' :: r4 =>
      match readQuotedAux r4 with
      | some (content, r5) =>
        some (RawToken.assign name (String.mk content) (pos + s1.1 + 1 + s2.1 + 1),
          r5, pos + s1.1 + 1 + s2.1 + 1 + content.length + 1)
      | none => none
    | other =>
      let val := other.takeWhile fun c => c != ';' && c != '\n'
      let r5 := other.dropWhile fun c => c != ';' && c != '\n'
      let v := trimRightSpaces val
      if v.isEmpty then none
      else some (RawToken.assign name (String.mk v) (pos + s1.1 + 1 + s2.1),
        r5, pos + s1.1 + 1 + s2.1 + val.length)
  | _ => none

/-- Scan a plugin declaration after its leading keyword: a quoted plugin id,
the version keyword and a quoted version. -/
def scanPlugin (rest : List Char) (pos : Nat) :
    Option (RawToken × List Char × Nat) :=
  let s1 := skipWs rest
  match s1.2 with
  | '"' :: r2 =>
    match readQuotedAux r2 with
    | some (pid, r3) =>
      let pos3 := pos + s1.1 + 1 + pid.length + 1
      let s2 := skipWs r3
      let kw := s2.2.takeWhile isIdentChar
      let r4 := s2.2.dropWhile isIdentChar
      if String.mk kw == "version" then
        let s3 := skipWs r4
        match s3.2 with
        | '"' :: r6 =>
          match readQuotedAux r6 with
          | some (ver, r7) =>
            let voff := pos3 + s2.1 + kw.length + s3.1 + 1
            some (RawToken.pluginDecl (String.mk pid) (String.mk ver) voff,
              r7, voff + ver.length + 1)
          | none => none
        | _ => none
      else none
    | none => none
  | _ => none

/-- Modelled from the spec: the script lexer. It scans file text as a
tolerant bag of recognizable substrings: quoted dependency-coordinate
literals, registry url declarations, plugin-with-version declarations and
simple assignments, emitting tokens in order of appearance. The fuel is the
length of the input; every step consumes at least one character. -/
def scanTokens : Nat → List Char → Nat → List RawToken
  | 0, _, _ => []
  | _ + 1, [], _ => []
  | fuel + 1, c :: cs, pos =>
    if c == '"' then
      match readQuotedAux cs with
      | none => []
      | some (content, rest) =>
        let restPos := pos + 1 + content.length + 1
        match classifyDep content (pos + 1) with
        | some t => t :: scanTokens fuel rest restPos
        | none => scanTokens fuel rest restPos
    else if isIdentStart c then
      let idc := (c :: cs).takeWhile isIdentChar
      let rest1 := (c :: cs).dropWhile isIdentChar
      let name := String.mk idc
      let pos1 := pos + idc.length
      if name == "url" then
        let s1 := skipWs rest1
        match s1.2 with
        | '"' :: rest3 =>
          match readQuotedAux rest3 with
          | some (content, rest4) =>
            RawToken.urlDecl (String.mk content) ::
              scanTokens fuel rest4 (pos1 + s1.1 + 1 + content.length + 1)
          | none => []
        | _ => scanTokens fuel rest1 pos1
      else if name == "id" then
        match scanPlugin rest1 pos1 with
        | some (t, rest2, pos2) => t :: scanTokens fuel rest2 pos2
        | none => scanTokens fuel rest1 pos1
      else
        match scanAssign name rest1 pos1 with
        | some (t, rest2, pos2) => t :: scanTokens fuel rest2 pos2
        | none => scanTokens fuel rest1 pos1
    else
      scanTokens fuel cs (pos + 1)

/-- All raw tokens of a file text. -/
def lexTokens (s : String) : List RawToken :=
  scanTokens s.data.length s.data 0

/-- A parsed variable assignment: name, literal value, and the byte offset of
the first character of the value in its file. -/
structure Assign where
  name : String
  value : String
  valueOffset : Nat
deriving Repr, DecidableEq

/-- The assignments appearing in a file text, in order of appearance. -/
def assignsOf (s : String) : List Assign :=
  (lexTokens s).filterMap fun t =>
    match t with
    | RawToken.assign n v o => some ⟨n, v, o⟩
    | _ => none

/-- Drop the last path component (and its slash); the directory of a path,
or the parent of a directory. The root directory is the empty string. -/
def dirname (p : String) : String :=
  String.mk (((p.data.reverse.dropWhile fun c => c != '/').drop 1).reverse)

/-- The last component of a path. -/
def baseName (p : String) : String :=
  String.mk ((p.data.reverse.takeWhile fun c => c != '/').reverse)

/-- Modelled from the spec: file classification rank used to order the batch
before processing: property files first, then settings scripts, then the
remaining build files of the same directory. -/
def fileRank (p : String) : Nat :=
  let b := (baseName p).data
  if listEndsWith b ".properties".data then 0
  else if listBeginsWith b "settings.".data then 1
  else 2

/-- Sort key of a path: its directory, then its rank within the directory. -/
def fileKey (p : String) : String × Nat := (dirname p, fileRank p)

/-- Strict Bool-valued order on sort keys. -/
def keyLt (a b : String × Nat) : Bool :=
  strLtB a.1 b.1 || (a.1 == b.1 && Nat.blt a.2 b.2)

/-- Stable insertion of a path into a key-sorted list (after equal keys). -/
def insertByKey (x : String) : List String → List String
  | [] => [x]
  | y :: ys => if keyLt (fileKey x) (fileKey y) then x :: y :: ys
               else y :: insertByKey x ys

/-- Modelled from the spec: deterministic processing order of the batch:
ancestor directories before descendants; within one directory property files
before settings scripts before other build files; stable otherwise. -/
def reorderFiles (paths : List String) : List String :=
  paths.foldl (fun acc p => insertByKey p acc) []

/-- The chain of directories from a directory up to the root, with fuel. -/
def dirChainAux : Nat → String → List String
  | 0, d => [d]
  | n + 1, d => if d == "" then [""] else d :: dirChainAux n (dirname d)

/-- The scope chain of a directory: itself, its ancestors, and the root. -/
def dirChain (d : String) : List String := dirChainAux (d.length + 1) d

/-- A variable binding held by a scope node: name, literal value, the file
that declared it, and the byte offset of the value in that file. -/
structure VarBinding where
  varName : String
  value : String
  declFile : String
  valueOffset : Nat
deriving Repr, DecidableEq

/-- Modelled from the spec: the scope tree, one node per directory holding
the variable bindings declared in that directory, keyed by directory path;
the parent relation is recovered from the directory paths themselves. -/
def Scope := List (String × List VarBinding)

/-- Find the binding list of a directory node. -/
def assocFind : Scope → String → Option (List VarBinding)
  | [], _ => none
  | (k, v) :: rest, d => if k == d then some v else assocFind rest d

/-- Find a binding by variable name (first, i.e. most recent, wins). -/
def findBinding (bs : List VarBinding) (name : String) : Option VarBinding :=
  bs.find? fun b => b.varName == name

/-- Prepend a binding to the node of a directory, creating the node if it
does not exist; a prepended binding shadows older same-named ones. -/
def scopeAdd : Scope → String → VarBinding → Scope
  | [], dir, b => [(dir, [b])]
  | (d, bs) :: rest, dir, b =>
    if d == dir then (d, b :: bs) :: rest else (d, bs) :: scopeAdd rest dir b

/-- Modelled from the spec: the scope tree built from parsed files. Files are
supplied in processing order (property files before the build script of the
same directory), and each binding shadows previously added ones, so script
bindings win over property-file bindings declared in the same directory. -/
def buildScopeFiles (pairs : List (String × String)) : Scope :=
  pairs.foldl
    (fun sc pr =>
      (assignsOf pr.2).foldl
        (fun sc2 asg => scopeAdd sc2 (dirname pr.1) ⟨asg.name, asg.value, pr.1, asg.valueOffset⟩)
        sc)
    []

/-- Walk a directory chain; at each level that has a node defining the name,
stop with that binding, otherwise continue upward. -/
def lookupChain (sc : Scope) : List String → String → Option VarBinding
  | [], _ => none
  | d :: rest, name =>
    match assocFind sc d with
    | some bs =>
      match findBinding bs name with
      | some b => some b
      | none => lookupChain sc rest name
    | none => lookupChain sc rest name

/-- Modelled from the spec: variable resolution walks the scope chain from
the directory of the reference upward; the closest definition wins. -/
def resolveRef (sc : Scope) (dir name : String) : Option VarBinding :=
  lookupChain sc (dirChain dir) name

/-- A segment of a raw value: literal text or a variable reference. -/
inductive VSeg where
  | lit (s : String)
  | ref (n : String)
deriving Repr, DecidableEq

/-- Characters allowed in a bare variable-reference name. -/
def isRefChar (c : Char) : Bool := c.isAlphanum || c == '_'

/-- Modelled from the spec: split a raw value into literal segments and
dollar-sign variable references. -/
def parseSegsAux : Nat → List Char → List VSeg
  | 0, _ => []
  | _ + 1, [] => []
  | fuel + 1, c :: cs =>
    if c == '$' then
      let nm := cs.takeWhile isRefChar
      let r := cs.dropWhile isRefChar
      if nm.isEmpty then VSeg.lit "$" :: parseSegsAux fuel cs
      else VSeg.ref (String.mk nm) :: parseSegsAux fuel r
    else VSeg.lit (String.mk [c]) :: parseSegsAux fuel cs

/-- The segments of a raw value string. -/
def parseSegs (s : String) : List VSeg := parseSegsAux s.data.length s.data

/-- The variable names referenced by the segments, in order. -/
def refNames (segs : List VSeg) : List String :=
  segs.filterMap fun s => match s with | VSeg.lit _ => none | VSeg.ref n => some n

/-- The fully substituted string of a raw value; an unresolved reference
contributes nothing. -/
def substituteSegs (sc : Scope) (dir : String) (segs : List VSeg) : String :=
  (segs.map fun s =>
    match s with
    | VSeg.lit t => t
    | VSeg.ref n => match resolveRef sc dir n with
      | some b => b.value
      | none => "").foldl String.append ""

/-- Whether every referenced variable resolves in scope. -/
def allRefsResolve (sc : Scope) (dir : String) (segs : List VSeg) : Bool :=
  segs.all fun s =>
    match s with
    | VSeg.lit _ => true
    | VSeg.ref n => (resolveRef sc dir n).isSome

/-- Per-dependency manager metadata: owning package file and the optional
byte offset of the version span eligible for in-place substitution. -/
structure ManagerData where
  packageFile : String
  fileReplacePosition : Option Nat := none
deriving Repr, DecidableEq

/-- Modelled from the spec: the final output unit of the extraction engine. -/
structure Dependency where
  depName : String
  depType : String := "dependency"
  packageName : Option String := none
  currentValue : Option String := none
  groupName : Option String := none
  commitMessageTopic : Option String := none
  registryUrls : List String := []
  managerData : ManagerData
  skipReason : Option String := none
deriving Repr, DecidableEq

/-- One record per logical file unit of the output. -/
structure PackageFileRecord where
  packageFile : String
  datasource : String
  deps : List Dependency
deriving Repr, DecidableEq

/-- A dependency-coordinate token handed to the assembler. -/
structure DepToken where
  group : String
  artifact : String
  versionRaw : String
  versionOffset : Nat
deriving Repr, DecidableEq

/-- Modelled from the spec: the dependency assembler for one coordinate
token. A literal version is patchable in place; a single-variable version is
attached to the file declaring the variable and patchable at the span of the
value of that binding; a multi-variable composition is marked contains-variable and is
never patchable, though its composed literal value is still reported when
every reference resolves. -/
def assembleDep (sc : Scope) (file : String) (tok : DepToken) : Dependency :=
  let dir := dirname file
  let segs := parseSegs tok.versionRaw
  let dn := tok.group ++ ":" ++ tok.artifact
  match refNames segs with
  | [] =>
    { depName := dn, currentValue := some tok.versionRaw,
      managerData := { packageFile := file, fileReplacePosition := some tok.versionOffset } }
  | [n] =>
    match resolveRef sc dir n with
    | some b =>
      { depName := dn, currentValue := some (substituteSegs sc dir segs),
        managerData := { packageFile := b.declFile, fileReplacePosition := some b.valueOffset } }
    | none =>
      { depName := dn, skipReason := some "contains-variable",
        managerData := { packageFile := file } }
  | _ :: _ :: _ =>
    if allRefsResolve sc dir segs then
      { depName := dn, currentValue := some (substituteSegs sc dir segs),
        skipReason := some "contains-variable",
        managerData := { packageFile := file } }
    else
      { depName := dn, skipReason := some "contains-variable",
        managerData := { packageFile := file } }

/-- A plugin declaration found in a build script becomes a plugin-typed
dependency with the plugin-marker coordinate of the registry as package name. -/
def pluginScriptDep (file : String) (pid ver : String) (voff : Nat) : Dependency :=
  { depName := pid, depType := "plugin",
    packageName := some (pid ++ ":" ++ pid ++ ".gradle.plugin"),
    currentValue := some ver,
    managerData := { packageFile := file, fileReplacePosition := some voff } }

/-- The dependency produced by one raw token, if any. -/
def tokenDep (sc : Scope) (file : String) : RawToken → Option Dependency
  | RawToken.depLit g a v o => some (assembleDep sc file ⟨g, a, v, o⟩)
  | RawToken.pluginDecl pid ver voff => some (pluginScriptDep file pid ver voff)
  | _ => none

/-- A single version string in a catalog, with the byte offset of its first
character in the catalog file. -/
structure PlainVersion where
  value : String
  valueOffset : Nat
deriving Repr, DecidableEq

/-- A catalog version entry: either a single version string or a structured
multi-bound constraint set (a rich version). -/
inductive CatalogVersion where
  | plain (p : PlainVersion)
  | rich (bounds : List (String × String))
deriving Repr, DecidableEq

/-- How a catalog library or plugin states its version: inline, or by
reference into the versions table. -/
inductive VersionSpec where
  | inl (v : CatalogVersion)
  | ref (aliasName : String)
deriving Repr, DecidableEq

/-- A catalog library entry. -/
structure LibraryEntry where
  aliasName : String
  moduleName : String
  version : Option VersionSpec
deriving Repr, DecidableEq

/-- A catalog plugin entry. -/
structure PluginEntry where
  aliasName : String
  pluginId : String
  version : Option VersionSpec
deriving Repr, DecidableEq

/-- Modelled from the spec: the structured table-of-tables content of a
version-catalog file (surface syntax parsing is the concern of a stock
format parser and is abstracted away). -/
structure Catalog where
  versions : List (String × CatalogVersion)
  libraries : List LibraryEntry
  plugins : List PluginEntry
deriving Repr, DecidableEq

/-- Look up an alias in the versions table. -/
def assocVersion : List (String × CatalogVersion) → String → Option CatalogVersion
  | [], _ => none
  | (k, v) :: rest, a => if k == a then some v else assocVersion rest a

/-- Characters a recognized version string may contain. -/
def isVersionChar (c : Char) : Bool :=
  c.isAlphanum || c == '.' || c == '-' || c == '+' || c == '_'

/-- Modelled from the spec: whether a version string can be interpreted as a
recognized version syntax (non-empty, only version characters, at least one
digit). -/
def isRecognizedVersion (s : String) : Bool :=
  !s.data.isEmpty && s.data.all isVersionChar && s.data.any (fun c => c.isDigit)

/-- Outcome of resolving the version specification of a catalog entry: a usable
value with its offset, or a skip reason; either carries the referenced
versions-table alias when reference indirection was used. -/
inductive VersionOutcome where
  | ok (value : String) (offset : Nat) (refAlias : Option String)
  | skip (reason : String) (refAlias : Option String)
deriving Repr, DecidableEq

/-- Modelled from the spec: resolution of a catalog version specification.
A missing specification is skip-reasoned no-version; a rich version is
skip-reasoned multiple-constraint-dep; a reference to an alias absent from
the versions table is skip-reasoned unknown-version; an unrecognizable
version string is skip-reasoned unsupported-version. -/
def resolveVersionSpec (versions : List (String × CatalogVersion)) :
    Option VersionSpec → VersionOutcome
  | none => VersionOutcome.skip "no-version" none
  | some (VersionSpec.inl (CatalogVersion.plain p)) =>
    if isRecognizedVersion p.value then VersionOutcome.ok p.value p.valueOffset none
    else VersionOutcome.skip "unsupported-version" none
  | some (VersionSpec.inl (CatalogVersion.rich _)) =>
    VersionOutcome.skip "multiple-constraint-dep" none
  | some (VersionSpec.ref a) =>
    match assocVersion versions a with
    | none => VersionOutcome.skip "unknown-version" (some a)
    | some (CatalogVersion.plain p) =>
      if isRecognizedVersion p.value then VersionOutcome.ok p.value p.valueOffset (some a)
      else VersionOutcome.skip "unsupported-version" (some a)
    | some (CatalogVersion.rich _) =>
      VersionOutcome.skip "multiple-constraint-dep" (some a)

/-- Modelled from the spec: the dependency record of one catalog library
entry. A version reference yields the referenced alias as group name; a
skipped entry carries no usable value and no replace position. -/
def extractLibDep (pf : String) (versions : List (String × CatalogVersion))
    (e : LibraryEntry) : Dependency :=
  match resolveVersionSpec versions e.version with
  | VersionOutcome.ok v off g =>
    { depName := e.moduleName, groupName := g, currentValue := some v,
      managerData := { packageFile := pf, fileReplacePosition := some off } }
  | VersionOutcome.skip r g =>
    { depName := if r == "unknown-version" then e.moduleName else e.aliasName,
      groupName := g, skipReason := some r,
      managerData := { packageFile := pf } }

/-- Modelled from the spec: the dependency record of one catalog plugin
entry. The package name is the plugin-marker coordinate; the commit message
topic is derived from the catalog alias and suppressed when the usable
version came through reference indirection. -/
def extractPluginDep (pf : String) (versions : List (String × CatalogVersion))
    (e : PluginEntry) : Dependency :=
  let base : Dependency :=
    { depName := e.pluginId, depType := "plugin",
      packageName := some (e.pluginId ++ ":" ++ e.pluginId ++ ".gradle.plugin"),
      commitMessageTopic := some ("plugin " ++ e.aliasName),
      managerData := { packageFile := pf } }
  match resolveVersionSpec versions e.version with
  | VersionOutcome.ok v off g =>
    { base with
      currentValue := some v
      groupName := g
      commitMessageTopic := if g.isSome then none else base.commitMessageTopic
      managerData := { packageFile := pf, fileReplacePosition := some off } }
  | VersionOutcome.skip r g =>
    { base with skipReason := some r, groupName := g }

/-- All dependency records of a catalog file: libraries first, then plugins,
each table in entry order. -/
def extractCatalogDeps (pf : String) (c : Catalog) : List Dependency :=
  c.libraries.map (extractLibDep pf c.versions) ++
    c.plugins.map (extractPluginDep pf c.versions)

/-- The content of one input file: script text (build scripts and property
files share the lexer) or the structured content of a version catalog. -/
inductive FileContent where
  | script (text : String)
  | catalog (cat : Catalog)
deriving Repr, DecidableEq

/-- The engine tolerates a caller-supplied lookup that throws: an error from
the lookup is caught and the file is treated as absent. -/
def readFiles (lookup : String → Except String FileContent) :
    String → Option FileContent :=
  fun p =>
    match lookup p with
    | Except.ok c => some c
    | Except.error _ => none

/-- The path/text pairs of the readable script files, in the given order. -/
def scriptPairs (files : String → Option FileContent) (paths : List String) :
    List (String × String) :=
  paths.filterMap fun p =>
    match files p with
    | some (FileContent.script txt) => some (p, txt)
    | _ => none

/-- The dependencies discovered while processing one file. -/
def fileDeps (files : String → Option FileContent) (sc : Scope) (p : String) :
    List Dependency :=
  match files p with
  | some (FileContent.script txt) => (lexTokens txt).filterMap (tokenDep sc p)
  | some (FileContent.catalog c) => extractCatalogDeps p c
  | none => []

/-- The global dependency stream: files in processing order, tokens in order
of appearance within each file. -/
def depStreamOf (files : String → Option FileContent) (sc : Scope)
    (ordered : List String) : List Dependency :=
  ordered.flatMap (fileDeps files sc)

/-- The url of a registry-declaration token. -/
def urlOfToken : RawToken → Option String
  | RawToken.urlDecl u => some u
  | _ => none

/-- Modelled from the spec: all custom registry urls declared across the
script files of the batch, in first-seen order (duplicates are removed when the
final list is assembled). -/
def collectUrlsOf (files : String → Option FileContent) (ordered : List String) :
    List String :=
  ordered.flatMap fun p =>
    match files p with
    | some (FileContent.script txt) => (lexTokens txt).filterMap urlOfToken
    | _ => []

/-- Keep the first occurrence of every string, dropping later duplicates. -/
def dedupeAux (seen : List String) : List String → List String
  | [] => []
  | x :: xs =>
    if seen.any (fun y => y == x) then dedupeAux seen xs
    else x :: dedupeAux (x :: seen) xs

/-- Order-preserving removal of exact-string duplicates. -/
def dedupe (l : List String) : List String := dedupeAux [] l

/-- The default central registry of the ecosystem. -/
def defaultRegistryUrl : String := "https://repo.maven.apache.org/maven2"

/-- The fixed plugin-portal registry inserted for plugin-type records. -/
def pluginPortalUrl : String := "https://plugins.gradle.org/m2/"

/-- Modelled from the spec: the registry URL accumulator. The list of every record begins with the default central registry; plugin-type records get the
plugin portal immediately after it; custom urls follow in first-seen order;
exact-string duplicates are removed. -/
def applyUrls (urls : List String) (d : Dependency) : Dependency :=
  { d with registryUrls :=
      dedupe (defaultRegistryUrl ::
        ((if d.depType == "plugin" then [pluginPortalUrl] else []) ++ urls)) }

/-- The finalized dependency stream of a batch. -/
def finalDepsOf (files : String → Option FileContent) (paths : List String) :
    List Dependency :=
  (depStreamOf files (buildScopeFiles (scriptPairs files (reorderFiles paths)))
    (reorderFiles paths)).map
    (applyUrls (collectUrlsOf files (reorderFiles paths)))

/-- Modelled from the spec: the whole extraction run over an abstract file
map: build the scope tree over the reordered batch, stream the resolved dependencies of every file, accumulate registry urls, and assemble one record per
supplied file (in processing order), each holding the dependencies attached
to it; a batch producing no dependency at all yields an absent result. -/
def extractCore (files : String → Option FileContent) (paths : List String) :
    Option (List PackageFileRecord) :=
  if (finalDepsOf files paths).isEmpty then none
  else
    some ((reorderFiles paths).map fun p =>
      { packageFile := p, datasource := "maven",
        deps := (finalDepsOf files paths).filter
          fun d => d.managerData.packageFile == p })

/-- Modelled from the spec: the extraction entry point, taking the
caller-supplied fallible file lookup and the batch of candidate paths. -/
def extractAllPackageFiles (lookup : String → Except String FileContent)
    (paths : List String) : Option (List PackageFileRecord) :=
  extractCore (readFiles lookup) paths

/-- A lookup backed by a finite list of files; anything else errors the way
a missing file does. -/
def lookupOf (files : List (String × FileContent)) :
    String → Except String FileContent :=
  fun p =>
    match files.find? (fun q => q.1 == p) with
    | some q => Except.ok q.2
    | none => Except.error ("File not found: " ++ p)

/-! ### Structural lemmas about the embedding -/

theorem dirname_length_lt (d : String) (h : d ≠ "") :
    (dirname d).length < d.length := by
  have hd : d.data ≠ [] := by
    intro hdata
    exact h (String.ext hdata)
  have hpos : 0 < d.data.length := List.length_pos.mpr hd
  have hm : (d.data.reverse.dropWhile fun c => c != '/').length ≤ d.data.length := by
    have hs := List.dropWhile_sublist (l := d.data.reverse) (fun c => c != '/')
    have := hs.length_le
    simpa [List.length_reverse] using this
  show (((d.data.reverse.dropWhile fun c => c != '/').drop 1).reverse).length < d.data.length
  rw [List.length_reverse, List.length_drop]
  omega

theorem dropWhile_ne_slash (l1 l2 : List Char)
    (h : l1.all (fun c => c != '/') = true) :
    (l1 ++ '/' :: l2).dropWhile (fun c => c != '/') = '/' :: l2 := by
  induction l1 with
  | nil =>
    rw [List.nil_append, List.dropWhile_cons]
    have hc : (('/' : Char) != '/') = false := by decide
    rw [hc]
    simp
  | cons c cs ih =>
    rw [List.all_cons, Bool.and_eq_true] at h
    rw [List.cons_append, List.dropWhile_cons, h.1]
    simp only [if_true]
    exact ih h.2

theorem dirname_slash_append (s base : String)
    (hb : base.data.all (fun c => c != '/') = true) :
    dirname (String.mk (s.data ++ '/' :: base.data)) = s := by
  have hrev : base.data.reverse.all (fun c => c != '/') = true := by
    rw [List.all_eq_true] at hb ⊢
    intro x hx
    exact hb x (List.mem_reverse.mp hx)
  rw [dirname]
  have h1 : (String.mk (s.data ++ '/' :: base.data)).data
      = s.data ++ '/' :: base.data := rfl
  rw [h1, List.reverse_append, List.reverse_cons, List.append_assoc,
    List.singleton_append, dropWhile_ne_slash _ _ hrev]
  simp

theorem lookupChain_two_fallback (bsRoot bsSub : List VarBinding)
    (sub name : String) (b : VarBinding)
    (hroot : findBinding bsRoot name = some b) :
    ∀ n (dir : String), dir.length < n → dir.length < sub.length →
      lookupChain [("", bsRoot), (sub, bsSub)] (dirChainAux n dir) name
        = some b := by
  intro n
  induction n with
  | zero => intro dir hlt _; omega
  | succ n ih =>
    intro dir hlt hsub
    by_cases hdir : dir = ""
    · subst hdir
      simp [dirChainAux, lookupChain, assocFind, hroot]
    · have hbeq : (dir == "") = false := by
        simp [hdir]
      have hbeq2 : ("" == dir) = false := by
        simp [Ne.symm hdir]
      have hbeq3 : (sub == dir) = false := by
        have : sub ≠ dir := by
          intro he
          rw [he] at hsub
          omega
        simp [this]
      rw [dirChainAux]
      rw [hbeq]
      simp only [Bool.false_eq_true, if_false]
      rw [lookupChain, assocFind, hbeq2]
      simp only [Bool.false_eq_true, if_false]
      rw [assocFind, hbeq3]
      simp only [Bool.false_eq_true, if_false, assocFind]
      have hlt2 : (dirname dir).length < n := by
        have := dirname_length_lt dir hdir
        omega
      have hlt3 : (dirname dir).length < sub.length := by
        have := dirname_length_lt dir hdir
        omega
      exact ih (dirname dir) hlt2 hlt3

theorem applyUrls_depType (u : List String) (d : Dependency) :
    (applyUrls u d).depType = d.depType := rfl

theorem applyUrls_managerData (u : List String) (d : Dependency) :
    (applyUrls u d).managerData = d.managerData := rfl

theorem mem_dedupeAux_not_seen :
    ∀ (l seen : List String) (x : String), x ∈ dedupeAux seen l → x ∉ seen := by
  intro l
  induction l with
  | nil => intro seen x hx; simp [dedupeAux] at hx
  | cons a l ih =>
    intro seen x hx
    rw [dedupeAux] at hx
    by_cases ha : (seen.any fun y => y == a) = true
    · rw [ha] at hx
      simp only [if_true] at hx
      exact ih seen x hx
    · rw [Bool.not_eq_true] at ha
      rw [ha] at hx
      simp only [Bool.false_eq_true, if_false, List.mem_cons] at hx
      rcases hx with rfl | hx
      · intro hxs
        apply (Bool.not_eq_true _).mpr ha
        exact List.any_eq_true.mpr ⟨x, hxs, by simp⟩
      · have := ih (a :: seen) x hx
        intro hxs
        exact this (List.mem_cons_of_mem a hxs)

theorem dedupeAux_nodup : ∀ (l seen : List String), (dedupeAux seen l).Nodup := by
  intro l
  induction l with
  | nil => intro seen; simp [dedupeAux]
  | cons a l ih =>
    intro seen
    rw [dedupeAux]
    by_cases ha : (seen.any fun y => y == a) = true
    · rw [ha]; simpa using ih seen
    · rw [Bool.not_eq_true] at ha
      rw [ha]
      simp only [Bool.false_eq_true, if_false, List.nodup_cons]
      refine ⟨?_, ih (a :: seen)⟩
      intro hmem
      exact mem_dedupeAux_not_seen l (a :: seen) a hmem (List.mem_cons_self a seen)

theorem dedupe_nodup (l : List String) : (dedupe l).Nodup := dedupeAux_nodup l []

theorem dedupe_cons (a : String) (l : List String) :
    dedupe (a :: l) = a :: dedupeAux [a] l := by
  simp [dedupe, dedupeAux]

theorem dedupe_head (a : String) (l : List String) :
    (dedupe (a :: l)).head? = some a := by
  rw [dedupe_cons]; rfl

theorem extractCore_eq_some (files : String → Option FileContent)
    (paths : List String) (recs : List PackageFileRecord)
    (h : extractCore files paths = some recs) :
    recs = (reorderFiles paths).map fun p =>
      { packageFile := p, datasource := "maven",
        deps := (finalDepsOf files paths).filter
          fun d => d.managerData.packageFile == p } := by
  rw [extractCore] at h
  by_cases he : (finalDepsOf files paths).isEmpty = true
  · rw [he] at h; simp at h
  · rw [Bool.not_eq_true] at he
    rw [he] at h
    simp only [Bool.false_eq_true, if_false, Option.some.injEq] at h
    exact h.symm

theorem extractCore_packageFiles (files : String → Option FileContent)
    (paths : List String) (recs : List PackageFileRecord)
    (h : extractCore files paths = some recs) :
    recs.map (fun r => r.packageFile) = reorderFiles paths := by
  rw [extractCore_eq_some files paths recs h, List.map_map]
  have : ((fun r : PackageFileRecord => r.packageFile) ∘ fun p =>
      ({ packageFile := p, datasource := "maven",
         deps := (finalDepsOf files paths).filter
           fun d => d.managerData.packageFile == p } : PackageFileRecord)) = id := by
    funext p
    rfl
  rw [this, List.map_id]

theorem dedupe_take_two (a b : String) (l : List String) (h : (a == b) = false) :
    (dedupe (a :: b :: l)).take 2 = [a, b] := by
  rw [dedupe_cons]
  rw [dedupeAux]
  have : ([a].any fun y => y == b) = false := by
    simp only [List.any_cons, List.any_nil, Bool.or_false]
    exact h
  rw [this]
  simp

theorem mem_finalDeps (files : String → Option FileContent) (paths : List String)
    (d : Dependency) (h : d ∈ finalDepsOf files paths) :
    ∃ d0, d = applyUrls (collectUrlsOf files (reorderFiles paths)) d0 := by
  rw [finalDepsOf] at h
  rcases List.mem_map.mp h with ⟨d0, _, hd0⟩
  exact ⟨d0, hd0.symm⟩

/-! ### Concrete extraction scenarios, mirroring the test suite of the repository -/

/-- Batch of the cross-referenced-files scenario: a property file declaring a
version variable and a build script using it in a coordinate literal. -/
def lookupC2 : String → Except String FileContent :=
  lookupOf [("gradle.properties", FileContent.script "baz=1.2.3"),
    ("build.gradle", FileContent.script "url \"https://example.com\"; \"foo:bar:$baz\"")]

/-- Caller-supplied path order of the cross-referenced-files scenario. -/
def pathsC2 : List String := ["build.gradle", "gradle.properties"]

/-- The records the engine produces for the cross-referenced-files batch. -/
def recsC2 : List PackageFileRecord :=
  [{ packageFile := "gradle.properties", datasource := "maven",
     deps := [{ depName := "foo:bar",
                currentValue := some "1.2.3",
                registryUrls := ["https://repo.maven.apache.org/maven2", "https://example.com"],
                managerData := { packageFile := "gradle.properties", fileReplacePosition := some 4 } }] },
   { packageFile := "build.gradle", datasource := "maven", deps := [] }]

/-- Batch of the multi-variable scenario: three variables composed into one
version. -/
def lookupMulti : String → Except String FileContent :=
  lookupOf [("build.gradle",
    FileContent.script "foo = \"1\"; bar = \"2\"; baz = \"3\"; \"foo:bar:$foo.$bar.$baz\"")]

/-- The scope tree of the multi-variable scenario. -/
def scopeMulti : Scope :=
  buildScopeFiles (scriptPairs (readFiles lookupMulti) (reorderFiles ["build.gradle"]))

/-- The coordinate token of the multi-variable scenario. -/
def tokMulti : DepToken := ⟨"foo", "bar", "$foo.$bar.$baz", 42⟩

/-- The scope tree of the cross-referenced-files scenario. -/
def scopeC2 : Scope :=
  buildScopeFiles (scriptPairs (readFiles lookupC2) (reorderFiles pathsC2))

/-! ### The claims -/

/-- C1: a dependency-coordinate token whose version composes two or more
variable references that all resolve in scope is emitted with skip reason
contains-variable, a current value equal to the fully substituted string,
and no file-replace position in its manager data. -/
theorem claim_C1 (sc : Scope) (file : String) (tok : DepToken)
    (n1 n2 : String) (ns : List String)
    (h1 : refNames (parseSegs tok.versionRaw) = n1 :: n2 :: ns)
    (h2 : allRefsResolve sc (dirname file) (parseSegs tok.versionRaw) = true) :
    (assembleDep sc file tok).skipReason = some "contains-variable" ∧
    (assembleDep sc file tok).currentValue =
      some (substituteSegs sc (dirname file) (parseSegs tok.versionRaw)) ∧
    (assembleDep sc file tok).managerData.fileReplacePosition = none := by
  rw [assembleDep, h1, h2]
  simp

theorem claim_C1_witness :
    (assembleDep scopeMulti "build.gradle" tokMulti).skipReason = some "contains-variable" ∧
    (assembleDep scopeMulti "build.gradle" tokMulti).currentValue =
      some (substituteSegs scopeMulti (dirname "build.gradle") (parseSegs tokMulti.versionRaw)) ∧
    (assembleDep scopeMulti "build.gradle" tokMulti).managerData.fileReplacePosition = none :=
  claim_C1 scopeMulti "build.gradle" tokMulti "foo" "bar" ["baz"] (by decide) (by decide)

/-- C2: the cross-referenced-files batch yields a record for the property
file holding exactly one dependency (name foo:bar, value 1.2.3, the value
of the cross-file variable), and a record with an empty dependency list for
the build script. -/
theorem claim_C2 :
    (extractAllPackageFiles lookupC2 pathsC2).map
        (fun recs => recs.map fun r => (r.packageFile, r.deps.map fun d => (d.depName, d.currentValue)))
      = some [("gradle.properties", [("foo:bar", some "1.2.3")]), ("build.gradle", [])] := by
  decide

/-- C10: a dependency token whose version is a single variable reference is
attached to the file declaring the winning binding, and, in the assembled
output, every dependency sits in the record of the file it is attached to
(so the script containing the literal does not list it). -/
theorem claim_C10 :
    (∀ (sc : Scope) (file : String) (tok : DepToken) (n : String) (b : VarBinding),
      parseSegs tok.versionRaw = [VSeg.ref n] →
      resolveRef sc (dirname file) n = some b →
      (assembleDep sc file tok).managerData.packageFile = b.declFile) ∧
    (∀ (lookup : String → Except String FileContent) (paths : List String)
      (recs : List PackageFileRecord) (r : PackageFileRecord) (d : Dependency),
      extractAllPackageFiles lookup paths = some recs → r ∈ recs → d ∈ r.deps →
      d.managerData.packageFile = r.packageFile) := by
  constructor
  · intro sc file tok n b h1 h2
    rw [assembleDep, h1]
    have hn : refNames [VSeg.ref n] = [n] := rfl
    rw [hn]
    simp [h2]
  · intro lookup paths recs r d h hr hd
    rw [extractAllPackageFiles] at h
    rw [extractCore_eq_some _ _ _ h] at hr
    rcases List.mem_map.mp hr with ⟨p, _, hp⟩
    subst hp
    simp only at hd
    have := (List.mem_filter.mp hd).2
    exact eq_of_beq this

theorem claim_C10_witness :
    (assembleDep scopeC2 "build.gradle" ⟨"foo", "bar", "$baz", 36⟩).managerData.packageFile
      = "gradle.properties" :=
  claim_C10.1 scopeC2 "build.gradle" ⟨"foo", "bar", "$baz", 36⟩ "baz"
    ⟨"baz", "1.2.3", "gradle.properties", 4⟩ (by decide) (by decide)

/-- C3: resolution walks the scope chain from the directory of the token
upward and the closest definition wins: with every binding lexed from file
content, (A) when a subdirectory (of arbitrary depth) and the root both
define the name in property file and build script, the build script of the
subdirectory wins; (B) the property file of the subdirectory still wins over
both root bindings; (C) when the subdirectory defines only an unrelated
name, the walk passes its node and the root build script wins over the root
property file - so root gradle.properties foo=1.0.0 with root build.gradle
foo="1.0.1" makes a reference to foo in that tree resolve to 1.0.1. -/
theorem claim_C3 (sub propsRoot scriptRoot propsSub scriptSub otherPropsSub : String)
    (name other vRP vRS vSP vSS vO : String) (oRP oRS oSP oSS oO : Nat)
    (hsub : sub ≠ "")
    (hother : other ≠ name)
    (h1 : assignsOf propsRoot = [⟨name, vRP, oRP⟩])
    (h2 : assignsOf scriptRoot = [⟨name, vRS, oRS⟩])
    (h3 : assignsOf propsSub = [⟨name, vSP, oSP⟩])
    (h4 : assignsOf scriptSub = [⟨name, vSS, oSS⟩])
    (h5 : assignsOf otherPropsSub = [⟨other, vO, oO⟩]) :
    resolveRef (buildScopeFiles
        [("gradle.properties", propsRoot), ("build.gradle", scriptRoot),
         (sub ++ "/gradle.properties", propsSub), (sub ++ "/build.gradle", scriptSub)])
      sub name = some ⟨name, vSS, sub ++ "/build.gradle", oSS⟩ ∧
    resolveRef (buildScopeFiles
        [("gradle.properties", propsRoot), ("build.gradle", scriptRoot),
         (sub ++ "/gradle.properties", propsSub)])
      sub name = some ⟨name, vSP, sub ++ "/gradle.properties", oSP⟩ ∧
    resolveRef (buildScopeFiles
        [("gradle.properties", propsRoot), ("build.gradle", scriptRoot),
         (sub ++ "/gradle.properties", otherPropsSub)])
      sub name = some ⟨name, vRS, "build.gradle", oRS⟩ := by
  have hd1 : dirname "gradle.properties" = "" := rfl
  have hd2 : dirname "build.gradle" = "" := rfl
  have hdp : dirname (sub ++ "/gradle.properties") = sub :=
    dirname_slash_append sub "gradle.properties" (by decide)
  have hdb : dirname (sub ++ "/build.gradle") = sub :=
    dirname_slash_append sub "build.gradle" (by decide)
  have hbs : ("" == sub) = false := by
    simp [Ne.symm hsub]
  have hsb : (sub == "") = false := by
    simp [hsub]
  have hchain : dirChainAux (sub.length + 1) sub
      = sub :: dirChainAux sub.length (dirname sub) := by
    rw [dirChainAux, hsb]
    simp
  have hsublt : (dirname sub).length < sub.length := dirname_length_lt sub hsub
  refine ⟨?_, ?_, ?_⟩
  · have hsc : buildScopeFiles
        [("gradle.properties", propsRoot), ("build.gradle", scriptRoot),
         (sub ++ "/gradle.properties", propsSub), (sub ++ "/build.gradle", scriptSub)]
        = [("", [⟨name, vRS, "build.gradle", oRS⟩, ⟨name, vRP, "gradle.properties", oRP⟩]),
           (sub, [⟨name, vSS, sub ++ "/build.gradle", oSS⟩,
                  ⟨name, vSP, sub ++ "/gradle.properties", oSP⟩])] := by
      rw [buildScopeFiles]
      simp only [List.foldl_cons, List.foldl_nil, h1, h2, h3, h4, hd1, hd2, hdp, hdb]
      simp [scopeAdd, hbs]
    rw [resolveRef, hsc, dirChain, hchain, lookupChain, assocFind, hbs]
    simp only [Bool.false_eq_true, if_false, assocFind, beq_self_eq_true, if_true]
    simp [findBinding]
  · have hsc : buildScopeFiles
        [("gradle.properties", propsRoot), ("build.gradle", scriptRoot),
         (sub ++ "/gradle.properties", propsSub)]
        = [("", [⟨name, vRS, "build.gradle", oRS⟩, ⟨name, vRP, "gradle.properties", oRP⟩]),
           (sub, [⟨name, vSP, sub ++ "/gradle.properties", oSP⟩])] := by
      rw [buildScopeFiles]
      simp only [List.foldl_cons, List.foldl_nil, h1, h2, h3, hd1, hd2, hdp]
      simp [scopeAdd, hbs]
    rw [resolveRef, hsc, dirChain, hchain, lookupChain, assocFind, hbs]
    simp only [Bool.false_eq_true, if_false, assocFind, beq_self_eq_true, if_true]
    simp [findBinding]
  · have hsc : buildScopeFiles
        [("gradle.properties", propsRoot), ("build.gradle", scriptRoot),
         (sub ++ "/gradle.properties", otherPropsSub)]
        = [("", [⟨name, vRS, "build.gradle", oRS⟩, ⟨name, vRP, "gradle.properties", oRP⟩]),
           (sub, [⟨other, vO, sub ++ "/gradle.properties", oO⟩])] := by
      rw [buildScopeFiles]
      simp only [List.foldl_cons, List.foldl_nil, h1, h2, h5, hd1, hd2, hdp]
      simp [scopeAdd, hbs]
    have hmiss : findBinding [⟨other, vO, sub ++ "/gradle.properties", oO⟩] name = none := by
      simp [findBinding, hother]
    rw [resolveRef, hsc, dirChain, hchain, lookupChain, assocFind, hbs]
    simp only [Bool.false_eq_true, if_false, assocFind, beq_self_eq_true, if_true, hmiss]
    exact lookupChain_two_fallback _ _ sub name
      ⟨name, vRS, "build.gradle", oRS⟩ (by simp [findBinding])
      sub.length (dirname sub) hsublt hsublt

theorem claim_C3_witness :
    resolveRef (buildScopeFiles
        [("gradle.properties", "foo=1.0.0"), ("build.gradle", "foo = \"1.0.1\""),
         ("aaa" ++ "/gradle.properties", "foo=2.0.0"), ("aaa" ++ "/build.gradle", "foo = \"2.0.1\"")])
      "aaa" "foo" = some ⟨"foo", "2.0.1", "aaa" ++ "/build.gradle", 7⟩ ∧
    resolveRef (buildScopeFiles
        [("gradle.properties", "foo=1.0.0"), ("build.gradle", "foo = \"1.0.1\""),
         ("aaa" ++ "/gradle.properties", "foo=2.0.0")])
      "aaa" "foo" = some ⟨"foo", "2.0.0", "aaa" ++ "/gradle.properties", 4⟩ ∧
    resolveRef (buildScopeFiles
        [("gradle.properties", "foo=1.0.0"), ("build.gradle", "foo = \"1.0.1\""),
         ("aaa" ++ "/gradle.properties", "bar = \"9.9.9\"")])
      "aaa" "foo" = some ⟨"foo", "1.0.1", "build.gradle", 7⟩ :=
  claim_C3 "aaa" "foo=1.0.0" "foo = \"1.0.1\"" "foo=2.0.0" "foo = \"2.0.1\""
    "bar = \"9.9.9\"" "foo" "bar" "1.0.0" "1.0.1" "2.0.0" "2.0.1" "9.9.9" 4 7 4 7 7
    (by decide) (by decide) (by decide) (by decide) (by decide) (by decide) (by decide)


/-- C5: the registry list of every assembled dependency is the deduplicated list
beginning with the default central registry, followed (for plugin records)
by the plugin portal, followed by the custom urls collected across the batch
in first-seen order; the head is always the default registry, the list has
no duplicates, and plugin records carry the portal right after the default
registry. -/
theorem claim_C5 (lookup : String → Except String FileContent) (paths : List String)
    (recs : List PackageFileRecord) (r : PackageFileRecord) (d : Dependency)
    (h : extractAllPackageFiles lookup paths = some recs)
    (hr : r ∈ recs) (hd : d ∈ r.deps) :
    d.registryUrls = dedupe (defaultRegistryUrl ::
      ((if d.depType == "plugin" then [pluginPortalUrl] else []) ++
        collectUrlsOf (readFiles lookup) (reorderFiles paths))) ∧
    d.registryUrls.head? = some defaultRegistryUrl ∧
    d.registryUrls.Nodup ∧
    (d.depType = "plugin" →
      d.registryUrls.take 2 = [defaultRegistryUrl, pluginPortalUrl]) := by
  rw [extractAllPackageFiles] at h
  rw [extractCore_eq_some _ _ _ h] at hr
  rcases List.mem_map.mp hr with ⟨p, _, hp⟩
  subst hp
  simp only at hd
  have hdf : d ∈ finalDepsOf (readFiles lookup) paths := (List.mem_filter.mp hd).1
  rcases mem_finalDeps _ _ _ hdf with ⟨d0, hd0⟩
  have hru : d.registryUrls = dedupe (defaultRegistryUrl ::
      ((if d.depType == "plugin" then [pluginPortalUrl] else []) ++
        collectUrlsOf (readFiles lookup) (reorderFiles paths))) := by
    rw [hd0]
    rfl
  refine ⟨hru, ?_, ?_, ?_⟩
  · rw [hru]; exact dedupe_head _ _
  · rw [hru]; exact dedupe_nodup _
  · intro hpl
    have hb : (d.depType == "plugin") = true := by rw [hpl]; rfl
    rw [hru, hb]
    simp only [if_true, List.singleton_append]
    exact dedupe_take_two _ _ _ (by decide)

/-- Batch of the deduplicates-registry-urls scenario. -/
def lookupDedup : String → Except String FileContent :=
  lookupOf [("build.gradle", FileContent.script
    ("url \"https://repo.maven.apache.org/maven2\";\nurl \"https://repo.maven.apache.org/maven2\";\nurl \"https://example.com\";\nurl \"https://example.com\";\nid \"foo.bar\" version \"1.2.3\";\n\"foo:bar:1.2.3\""))]

/-- The records of the deduplicates-registry-urls batch. -/
def recsDedup : List PackageFileRecord :=
  [{ packageFile := "build.gradle", datasource := "maven",
     deps := [{ depName := "foo.bar", depType := "plugin",
                packageName := some "foo.bar:foo.bar.gradle.plugin",
                currentValue := some "1.2.3",
                registryUrls := ["https://repo.maven.apache.org/maven2",
                  "https://plugins.gradle.org/m2/", "https://example.com"],
                managerData := { packageFile := "build.gradle", fileReplacePosition := some 164 } },
              { depName := "foo:bar",
                currentValue := some "1.2.3",
                registryUrls := ["https://repo.maven.apache.org/maven2", "https://example.com"],
                managerData := { packageFile := "build.gradle", fileReplacePosition := some 181 } }] }]

set_option maxRecDepth 4096 in
theorem claim_C5_witness :
    ((recsDedup.head (by decide)).deps.head (by decide)).registryUrls.take 2
      = [defaultRegistryUrl, pluginPortalUrl] :=
  (claim_C5 lookupDedup ["build.gradle"] recsDedup (recsDedup.head (by decide))
    ((recsDedup.head (by decide)).deps.head (by decide))
    (by decide) (by decide) (by decide)).2.2.2 rfl

/-- C6 counterexample: for the cross-referenced-files batch the caller
supplies the build script first, yet the emitted records list the property
file first, so the per-file records are not emitted in the caller-supplied
order. -/
theorem claim_C6_counterexample :
    (extractAllPackageFiles lookupC2 pathsC2).map
        (fun recs => recs.map fun r => r.packageFile)
      = some ["gradle.properties", "build.gradle"] ∧
    pathsC2 = ["build.gradle", "gradle.properties"] ∧
    (["gradle.properties", "build.gradle"] : List String) ≠ pathsC2 :=
  ⟨by decide, rfl, by decide⟩

/-- C6 (amended): the per-file records are emitted in the processing order of the engine of the supplied paths (property files before settings
scripts before other build files of a directory, ancestor directories
first), not the caller-supplied order; each record holds exactly the
dependencies of the global discovery stream attached to its file, in stream
order (files in processing order, tokens in source-text order). -/
theorem claim_C6 (lookup : String → Except String FileContent) (paths : List String)
    (recs : List PackageFileRecord)
    (h : extractAllPackageFiles lookup paths = some recs) :
    recs.map (fun r => r.packageFile) = reorderFiles paths ∧
    ∀ r ∈ recs, r.deps = (finalDepsOf (readFiles lookup) paths).filter
      fun d => d.managerData.packageFile == r.packageFile := by
  rw [extractAllPackageFiles] at h
  refine ⟨extractCore_packageFiles _ _ _ h, ?_⟩
  intro r hr
  rw [extractCore_eq_some _ _ _ h] at hr
  rcases List.mem_map.mp hr with ⟨p, _, hp⟩
  subst hp
  rfl

theorem claim_C6_witness :
    recsC2.map (fun r => r.packageFile) = reorderFiles pathsC2 :=
  (claim_C6 lookupC2 pathsC2 recsC2 (by decide)).1

/-- C9: when the caller-supplied lookup errors for one file of the batch,
the run is identical to a run in which that file is simply missing (the
content of the error is irrelevant), and extraction still completes with one
record per supplied file in processing order. -/
theorem claim_C9 (lookup : String → Except String FileContent) (paths : List String)
    (p : String) (e : String) (h : lookup p = Except.error e) :
    extractAllPackageFiles lookup paths =
      extractAllPackageFiles
        (fun q => if q == p then Except.error "File not found" else lookup q) paths ∧
    ∀ recs, extractAllPackageFiles lookup paths = some recs →
      recs.map (fun r => r.packageFile) = reorderFiles paths := by
  constructor
  · rw [extractAllPackageFiles, extractAllPackageFiles]
    have hrf : readFiles lookup = readFiles
        (fun q => if q == p then Except.error "File not found" else lookup q) := by
      funext q
      simp only [readFiles]
      by_cases hq : q = p
      · subst hq
        rw [h]
        simp
      · have hb : (q == p) = false := by simp [hq]
        rw [hb]
        simp
    rw [hrf]
  · intro recs hrecs
    rw [extractAllPackageFiles] at hrecs
    exact extractCore_packageFiles _ _ _ hrecs

/-- Batch of the file-ext-var scenario, whose settings script is absent from
the file map, so its lookup rejects. -/
def lookupExt : String → Except String FileContent :=
  lookupOf [("gradle.properties", FileContent.script "baz=1.2.3"),
    ("build.gradle", FileContent.script "url \"https://example.com\"; \"foo:bar:$baz@zip\"")]

/-- Caller-supplied path order of the file-ext-var scenario. -/
def pathsExt : List String := ["build.gradle", "gradle.properties", "settings.gradle"]

/-- The records of the file-ext-var batch. -/
def recsExt : List PackageFileRecord :=
  [{ packageFile := "gradle.properties", datasource := "maven",
     deps := [{ depName := "foo:bar",
                currentValue := some "1.2.3",
                registryUrls := ["https://repo.maven.apache.org/maven2", "https://example.com"],
                managerData := { packageFile := "gradle.properties", fileReplacePosition := some 4 } }] },
   { packageFile := "settings.gradle", datasource := "maven", deps := [] },
   { packageFile := "build.gradle", datasource := "maven", deps := [] }]

theorem claim_C9_witness :
    recsExt.map (fun r => r.packageFile) = reorderFiles pathsExt :=
  (claim_C9 lookupExt pathsExt "settings.gradle" "File not found: settings.gradle"
    rfl).2 recsExt (by decide)

/-- Whether a version specification uses reference indirection. -/
def isRefVersion : Option VersionSpec → Bool
  | some (VersionSpec.ref _) => true
  | _ => false

/-- C4: catalog entries referencing an alias absent from the versions table
are skip-reasoned unknown-version; entries whose (referenced) version is a
structured multi-bound constraint set are skip-reasoned
multiple-constraint-dep with no current value; entries whose version string
is not a recognized version syntax are skip-reasoned unsupported-version.
Stated for library and plugin entries alike. -/
theorem claim_C4 (pf : String) (versions : List (String × CatalogVersion))
    (lib : LibraryEntry) (plg : PluginEntry) (a : String) (p : PlainVersion)
    (bs : List (String × String)) :
    (lib.version = some (VersionSpec.ref a) → assocVersion versions a = none →
      (extractLibDep pf versions lib).skipReason = some "unknown-version") ∧
    (plg.version = some (VersionSpec.ref a) → assocVersion versions a = none →
      (extractPluginDep pf versions plg).skipReason = some "unknown-version") ∧
    (lib.version = some (VersionSpec.ref a) →
      assocVersion versions a = some (CatalogVersion.rich bs) →
      (extractLibDep pf versions lib).skipReason = some "multiple-constraint-dep" ∧
      (extractLibDep pf versions lib).currentValue = none) ∧
    (plg.version = some (VersionSpec.ref a) →
      assocVersion versions a = some (CatalogVersion.rich bs) →
      (extractPluginDep pf versions plg).skipReason = some "multiple-constraint-dep" ∧
      (extractPluginDep pf versions plg).currentValue = none) ∧
    (lib.version = some (VersionSpec.inl (CatalogVersion.plain p)) →
      isRecognizedVersion p.value = false →
      (extractLibDep pf versions lib).skipReason = some "unsupported-version") ∧
    (plg.version = some (VersionSpec.inl (CatalogVersion.plain p)) →
      isRecognizedVersion p.value = false →
      (extractPluginDep pf versions plg).skipReason = some "unsupported-version") ∧
    (lib.version = some (VersionSpec.ref a) →
      assocVersion versions a = some (CatalogVersion.plain p) →
      isRecognizedVersion p.value = false →
      (extractLibDep pf versions lib).skipReason = some "unsupported-version") ∧
    (plg.version = some (VersionSpec.ref a) →
      assocVersion versions a = some (CatalogVersion.plain p) →
      isRecognizedVersion p.value = false →
      (extractPluginDep pf versions plg).skipReason = some "unsupported-version") := by
  refine ⟨?_, ?_, ?_, ?_, ?_, ?_, ?_, ?_⟩
  all_goals intro h1 h2
  · simp [extractLibDep, resolveVersionSpec, h1, h2]
  · simp [extractPluginDep, resolveVersionSpec, h1, h2]
  · simp [extractLibDep, resolveVersionSpec, h1, h2]
  · simp [extractPluginDep, resolveVersionSpec, h1, h2]
  · simp [extractLibDep, resolveVersionSpec, h1, h2]
  · simp [extractPluginDep, resolveVersionSpec, h1, h2]
  · intro h3; simp [extractLibDep, resolveVersionSpec, h1, h2, h3]
  · intro h3; simp [extractPluginDep, resolveVersionSpec, h1, h2, h3]

/-- The versions table of the catalog witness scenario. -/
def versionsW : List (String × CatalogVersion) :=
  [("kotest", CatalogVersion.plain ⟨"4.6.0", 51⟩),
   ("badver", CatalogVersion.plain ⟨"[1.0,2.0]", 80⟩),
   ("richver", CatalogVersion.rich [("require", "1.0"), ("reject", "1.1")])]

/-- A library entry referencing a missing alias. -/
def libUnknown : LibraryEntry := ⟨"grgitlib", "org.ajoberstar:grgit-core", some (VersionSpec.ref "grgit")⟩

/-- A plugin entry referencing a missing alias. -/
def plgUnknown : PluginEntry := ⟨"grgit", "org.ajoberstar.grgit", some (VersionSpec.ref "grgit")⟩

/-- A library entry with an inline rich version. -/
def libRich : LibraryEntry :=
  ⟨"guava", "com.google.guava:guava",
    some (VersionSpec.inl (CatalogVersion.rich [("require", "1.0"), ("reject", "1.1")]))⟩

/-- A library entry referencing a rich version. -/
def libRichRef : LibraryEntry :=
  ⟨"guavaref", "com.google.guava:guava", some (VersionSpec.ref "richver")⟩

/-- A plugin entry referencing a rich version. -/
def plgRichRef : PluginEntry :=
  ⟨"richplg", "org.example.rich", some (VersionSpec.ref "richver")⟩

/-- A library entry with an unrecognizable inline version string. -/
def libBad : LibraryEntry :=
  ⟨"gson", "com.google.code.gson:gson",
    some (VersionSpec.inl (CatalogVersion.plain ⟨"[1.0,2.0]", 99⟩))⟩

/-- A plugin entry with an unrecognizable inline version string. -/
def plgBad : PluginEntry :=
  ⟨"badplg", "org.example.bad",
    some (VersionSpec.inl (CatalogVersion.plain ⟨"[1.0,2.0]", 99⟩))⟩

/-- A library entry referencing an unrecognizable version string. -/
def libBadRef : LibraryEntry :=
  ⟨"gsonref", "com.google.code.gson:gson", some (VersionSpec.ref "badver")⟩

/-- A plugin entry referencing an unrecognizable version string. -/
def plgBadRef : PluginEntry :=
  ⟨"badrefplg", "org.example.badref", some (VersionSpec.ref "badver")⟩

theorem claim_C4_witness :
    (extractLibDep "libs.toml" versionsW libUnknown).skipReason = some "unknown-version" ∧
    (extractPluginDep "libs.toml" versionsW plgUnknown).skipReason = some "unknown-version" ∧
    (extractLibDep "libs.toml" versionsW libRichRef).skipReason = some "multiple-constraint-dep" ∧
    (extractLibDep "libs.toml" versionsW libRichRef).currentValue = none ∧
    (extractPluginDep "libs.toml" versionsW plgRichRef).skipReason = some "multiple-constraint-dep" ∧
    (extractPluginDep "libs.toml" versionsW plgRichRef).currentValue = none ∧
    (extractLibDep "libs.toml" versionsW libBad).skipReason = some "unsupported-version" ∧
    (extractPluginDep "libs.toml" versionsW plgBad).skipReason = some "unsupported-version" ∧
    (extractLibDep "libs.toml" versionsW libBadRef).skipReason = some "unsupported-version" ∧
    (extractPluginDep "libs.toml" versionsW plgBadRef).skipReason = some "unsupported-version" := by
  refine ⟨?_, ?_, ?_, ?_, ?_, ?_, ?_, ?_, ?_, ?_⟩
  · exact (claim_C4 "libs.toml" versionsW libUnknown plgUnknown "grgit" ⟨"", 0⟩ []).1 rfl rfl
  · exact (claim_C4 "libs.toml" versionsW libUnknown plgUnknown "grgit" ⟨"", 0⟩ []).2.1 rfl rfl
  · exact ((claim_C4 "libs.toml" versionsW libRichRef plgRichRef "richver" ⟨"", 0⟩
      [("require", "1.0"), ("reject", "1.1")]).2.2.1 rfl rfl).1
  · exact ((claim_C4 "libs.toml" versionsW libRichRef plgRichRef "richver" ⟨"", 0⟩
      [("require", "1.0"), ("reject", "1.1")]).2.2.1 rfl rfl).2
  · exact ((claim_C4 "libs.toml" versionsW libRichRef plgRichRef "richver" ⟨"", 0⟩
      [("require", "1.0"), ("reject", "1.1")]).2.2.2.1 rfl rfl).1
  · exact ((claim_C4 "libs.toml" versionsW libRichRef plgRichRef "richver" ⟨"", 0⟩
      [("require", "1.0"), ("reject", "1.1")]).2.2.2.1 rfl rfl).2
  · exact (claim_C4 "libs.toml" versionsW libBad plgBad "x" ⟨"[1.0,2.0]", 99⟩
      []).2.2.2.2.1 rfl (by decide)
  · exact (claim_C4 "libs.toml" versionsW libBad plgBad "x" ⟨"[1.0,2.0]", 99⟩
      []).2.2.2.2.2.1 rfl (by decide)
  · exact (claim_C4 "libs.toml" versionsW libBadRef plgBadRef "badver" ⟨"[1.0,2.0]", 80⟩
      []).2.2.2.2.2.2.1 rfl rfl (by decide)
  · exact (claim_C4 "libs.toml" versionsW libBadRef plgBadRef "badver" ⟨"[1.0,2.0]", 80⟩
      []).2.2.2.2.2.2.2 rfl rfl (by decide)

/-- C7: a catalog plugin entry resolved to a usable version (no skip reason)
carries the plugin-marker package name, and carries a commit message topic
exactly when its version is stated inline rather than through reference
indirection. -/
theorem claim_C7 (pf : String) (versions : List (String × CatalogVersion))
    (e : PluginEntry)
    (h : (extractPluginDep pf versions e).skipReason = none) :
    (extractPluginDep pf versions e).packageName =
      some (e.pluginId ++ ":" ++ e.pluginId ++ ".gradle.plugin") ∧
    ((extractPluginDep pf versions e).commitMessageTopic =
        some ("plugin " ++ e.aliasName) ↔ isRefVersion e.version = false) := by
  rcases e with ⟨al, pid, v⟩
  match v with
  | none => simp [extractPluginDep, resolveVersionSpec] at h
  | some (VersionSpec.inl (CatalogVersion.plain p)) =>
    by_cases hrec : isRecognizedVersion p.value = true
    · simp [extractPluginDep, resolveVersionSpec, hrec, isRefVersion]
    · rw [Bool.not_eq_true] at hrec
      simp [extractPluginDep, resolveVersionSpec, hrec] at h
  | some (VersionSpec.inl (CatalogVersion.rich b)) =>
    simp [extractPluginDep, resolveVersionSpec] at h
  | some (VersionSpec.ref a) =>
    match hm : assocVersion versions a with
    | none => simp [extractPluginDep, resolveVersionSpec, hm] at h
    | some (CatalogVersion.plain p) =>
      by_cases hrec : isRecognizedVersion p.value = true
      · simp [extractPluginDep, resolveVersionSpec, hm, hrec, isRefVersion]
      · rw [Bool.not_eq_true] at hrec
        simp [extractPluginDep, resolveVersionSpec, hm, hrec] at h
    | some (CatalogVersion.rich b) =>
      simp [extractPluginDep, resolveVersionSpec, hm] at h

/-- The inline-versioned plugin entry of the catalog witness scenario. -/
def plgInline : PluginEntry :=
  ⟨"kotlinJvm", "org.jetbrains.kotlin.jvm",
    some (VersionSpec.inl (CatalogVersion.plain ⟨"1.5.21", 661⟩))⟩

theorem claim_C7_witness :
    (extractPluginDep "libs.toml" versionsW plgInline).packageName =
      some ("org.jetbrains.kotlin.jvm" ++ ":" ++ "org.jetbrains.kotlin.jvm" ++ ".gradle.plugin") ∧
    ((extractPluginDep "libs.toml" versionsW plgInline).commitMessageTopic =
        some ("plugin " ++ "kotlinJvm") ↔ isRefVersion plgInline.version = false) :=
  claim_C7 "libs.toml" versionsW plgInline (by decide)

/-- C8: a catalog library or plugin entry using a version reference gets the
referenced versions-table alias as its group name (so entries sharing one
alias share one group name), while an entry with an inline version gets no
group name. -/
theorem claim_C8 (pf : String) (versions : List (String × CatalogVersion))
    (lib : LibraryEntry) (plg : PluginEntry) (a : String) (v : CatalogVersion) :
    (lib.version = some (VersionSpec.ref a) →
      (extractLibDep pf versions lib).groupName = some a) ∧
    (plg.version = some (VersionSpec.ref a) →
      (extractPluginDep pf versions plg).groupName = some a) ∧
    (lib.version = some (VersionSpec.inl v) →
      (extractLibDep pf versions lib).groupName = none) ∧
    (plg.version = some (VersionSpec.inl v) →
      (extractPluginDep pf versions plg).groupName = none) := by
  refine ⟨?_, ?_, ?_, ?_⟩
  all_goals intro h1
  · match hm : assocVersion versions a with
    | none => simp [extractLibDep, resolveVersionSpec, h1, hm]
    | some (CatalogVersion.plain p) =>
      by_cases hrec : isRecognizedVersion p.value = true
      · simp [extractLibDep, resolveVersionSpec, h1, hm, hrec]
      · rw [Bool.not_eq_true] at hrec
        simp [extractLibDep, resolveVersionSpec, h1, hm, hrec]
    | some (CatalogVersion.rich b) =>
      simp [extractLibDep, resolveVersionSpec, h1, hm]
  · match hm : assocVersion versions a with
    | none => simp [extractPluginDep, resolveVersionSpec, h1, hm]
    | some (CatalogVersion.plain p) =>
      by_cases hrec : isRecognizedVersion p.value = true
      · simp [extractPluginDep, resolveVersionSpec, h1, hm, hrec]
      · rw [Bool.not_eq_true] at hrec
        simp [extractPluginDep, resolveVersionSpec, h1, hm, hrec]
    | some (CatalogVersion.rich b) =>
      simp [extractPluginDep, resolveVersionSpec, h1, hm]
  · match v with
    | CatalogVersion.plain p =>
      by_cases hrec : isRecognizedVersion p.value = true
      · simp [extractLibDep, resolveVersionSpec, h1, hrec]
      · rw [Bool.not_eq_true] at hrec
        simp [extractLibDep, resolveVersionSpec, h1, hrec]
    | CatalogVersion.rich b =>
      simp [extractLibDep, resolveVersionSpec, h1]
  · match v with
    | CatalogVersion.plain p =>
      by_cases hrec : isRecognizedVersion p.value = true
      · simp [extractPluginDep, resolveVersionSpec, h1, hrec]
      · rw [Bool.not_eq_true] at hrec
        simp [extractPluginDep, resolveVersionSpec, h1, hrec]
    | CatalogVersion.rich b =>
      simp [extractPluginDep, resolveVersionSpec, h1]

/-- A library entry referencing the kotest alias. -/
def libKotest : LibraryEntry :=
  ⟨"kotest-assertions", "io.kotest:kotest-assertions-core-jvm",
    some (VersionSpec.ref "kotest")⟩

theorem claim_C8_witness :
    (extractLibDep "libs.toml" versionsW libKotest).groupName = some "kotest" ∧
    (extractPluginDep "libs.toml" versionsW plgInline).groupName = none :=
  ⟨(claim_C8 "libs.toml" versionsW libKotest plgInline "kotest"
      (CatalogVersion.plain ⟨"1.5.21", 661⟩)).1 rfl,
   (claim_C8 "libs.toml" versionsW libKotest plgInline "kotest"
      (CatalogVersion.plain ⟨"1.5.21", 661⟩)).2.2.2 rfl⟩

end GradleExtract
